import Mathlib

/-!
Verification of the clipboard backend module of `helix-view` (`src/clipboard.rs`).

The Rust code is shallowly embedded:
* Rust `String` text is modelled as a list of Unicode scalar values (`Str`);
* byte buffers (`Vec<u8>`) are lists of natural numbers below 256;
* fallible operations return `Except String α` (the `String` is the error message,
  modelling `anyhow::Error`);
* external effects (the terminal device, standard output, the OS clipboard,
  spawned processes, the process environment) are passed in explicitly as
  "world" values, so each provider operation is a pure function of its inputs
  and of the world's behaviour.
-/

/-- Rust `String` / `&str` text: a sequence of Unicode scalar values. -/
abbrev Str := List Char

namespace Clipboard

/-- `ClipboardType` from clipboard.rs: which of the two buffers an operation targets. -/
inductive ClipboardType where
  | Clipboard
  | Selection
deriving DecidableEq, Repr

/-! ## base64 (model of the `base64` crate, standard alphabet with padding) -/

namespace base64

/-- One 6-bit group to its character in the standard base64 alphabet. -/
def encodeChar (n : Nat) : Char :=
  Char.ofNat
    (if n < 26 then 65 + n
     else if n < 52 then 71 + n
     else if n < 62 then n - 4
     else if n = 62 then 43
     else 47)

/-- Inverse of `encodeChar` on the standard alphabet; `none` off the alphabet. -/
def decodeChar (c : Char) : Option Nat :=
  let n := c.toNat
  if 65 ≤ n ∧ n ≤ 90 then some (n - 65)
  else if 97 ≤ n ∧ n ≤ 122 then some (n - 71)
  else if 48 ≤ n ∧ n ≤ 57 then some (n + 4)
  else if n = 43 then some 62
  else if n = 47 then some 63
  else none

/-- `base64::encode`: bytes to text, three bytes to four characters, `=`-padded. -/
def encode : List Nat → List Char
  | [] => []
  | [a] => [encodeChar (a / 4), encodeChar (a % 4 * 16), '=', '=']
  | [a, b] =>
    [encodeChar (a / 4), encodeChar (a % 4 * 16 + b / 16), encodeChar (b % 16 * 4), '=']
  | a :: b :: c :: rest =>
    encodeChar (a / 4) :: encodeChar (a % 4 * 16 + b / 16) ::
      encodeChar (b % 16 * 4 + c / 64) :: encodeChar (c % 64) :: encode rest

/-- `base64::decode`: text to bytes; fails on non-alphabet characters, bad
padding placement, trailing-bit garbage, or a length not a multiple of four. -/
def decode : List Char → Option (List Nat)
  | [] => some []
  | c1 :: c2 :: c3 :: c4 :: rest =>
    if c3 = '=' then
      if c4 = '=' ∧ rest = [] then
        match decodeChar c1, decodeChar c2 with
        | some n1, some n2 => if n2 % 16 = 0 then some [n1 * 4 + n2 / 16] else none
        | _, _ => none
      else none
    else if c4 = '=' then
      if rest = [] then
        match decodeChar c1, decodeChar c2, decodeChar c3 with
        | some n1, some n2, some n3 =>
          if n3 % 4 = 0 then some [n1 * 4 + n2 / 16, n2 % 16 * 16 + n3 / 4] else none
        | _, _, _ => none
      else none
    else
      match decodeChar c1, decodeChar c2, decodeChar c3, decodeChar c4 with
      | some n1, some n2, some n3, some n4 =>
        (decode rest).map fun tail =>
          (n1 * 4 + n2 / 16) :: (n2 % 16 * 16 + n3 / 4) :: (n3 % 4 * 64 + n4) :: tail
      | _, _, _, _ => none
  | _ => none

end base64

/-! ## UTF-8 (model of `String::from_utf8` and of a Rust string's byte view) -/

/-- The UTF-8 bytes of one Unicode scalar value. -/
def utf8EncodeChar (c : Char) : List Nat :=
  let v := c.toNat
  if v < 0x80 then [v]
  else if v < 0x800 then [0xC0 + v / 64, 0x80 + v % 64]
  else if v < 0x10000 then [0xE0 + v / 4096, 0x80 + v / 64 % 64, 0x80 + v % 64]
  else [0xF0 + v / 262144, 0x80 + v / 4096 % 64, 0x80 + v / 64 % 64, 0x80 + v % 64]

/-- The UTF-8 byte sequence of a text (Rust `str::as_bytes`). -/
def utf8Encode : Str → List Nat
  | [] => []
  | c :: s => utf8EncodeChar c ++ utf8Encode s

/-- One step of UTF-8 decoding: from a lead byte and the bytes after it,
the decoded scalar value and how many continuation bytes it used; `none` on
an invalid lead byte, bad continuation bytes, overlong forms, surrogates,
out-of-range scalars or a truncated sequence. -/
def utf8Step (b : Nat) (rest : List Nat) : Option (Nat × Nat) :=
  if b < 0x80 then some (b, 0)
  else if b < 0xC0 then none
  else if b < 0xE0 then
    match rest with
    | b2 :: _ =>
      if 0x80 ≤ b2 ∧ b2 < 0xC0 then
        let v := (b - 0xC0) * 64 + (b2 - 0x80)
        if 0x80 ≤ v then some (v, 1) else none
      else none
    | [] => none
  else if b < 0xF0 then
    match rest with
    | b2 :: b3 :: _ =>
      if (0x80 ≤ b2 ∧ b2 < 0xC0) ∧ (0x80 ≤ b3 ∧ b3 < 0xC0) then
        let v := (b - 0xE0) * 4096 + (b2 - 0x80) * 64 + (b3 - 0x80)
        if 0x800 ≤ v ∧ ¬(0xD800 ≤ v ∧ v < 0xE000) then some (v, 2) else none
      else none
    | _ => none
  else if b < 0xF8 then
    match rest with
    | b2 :: b3 :: b4 :: _ =>
      if (0x80 ≤ b2 ∧ b2 < 0xC0) ∧ (0x80 ≤ b3 ∧ b3 < 0xC0) ∧ (0x80 ≤ b4 ∧ b4 < 0xC0) then
        let v := (b - 0xF0) * 262144 + (b2 - 0x80) * 4096 + (b3 - 0x80) * 64 + (b4 - 0x80)
        if 0x10000 ≤ v ∧ v < 0x110000 then some (v, 3) else none
      else none
    | _ => none
  else none

/-- `String::from_utf8`: parse a byte sequence as UTF-8 text, one scalar
value at a time via `utf8Step`. -/
def utf8Decode (l : List Nat) : Option Str :=
  match l with
  | [] => some []
  | b :: rest =>
    match utf8Step b rest with
    | some (v, k) => (utf8Decode (rest.drop k)).map (Char.ofNat v :: ·)
    | none => none
termination_by l.length
decreasing_by
  simp only [List.length_cons, List.length_drop]
  omega

/-! ## String helpers used by `TermProvider::get_contents` -/

/-- Rust `str::strip_prefix p`: `some` of the remainder when `p` leads the text. -/
def dropPfx : Str → Str → Option Str
  | s, [] => some s
  | [], _ :: _ => none
  | c :: s, p :: ps => if c = p then dropPfx s ps else none

/-- Rust `str::strip_suffix t`: `some` of the front when `t` ends the text. -/
def dropSfx (s t : Str) : Option Str :=
  (dropPfx s.reverse t.reverse).map List.reverse

/-- `rest.find(..)` for `;` combined with the slice `rest[start + 1..]`:
everything after the first semicolon, `none` when there is none. -/
def afterFirstSemi : Str → Option Str
  | [] => none
  | c :: s => if c = ';' then some s else afterFirstSemi s

/-! ## `NopProvider`: the in-memory fallback backend -/

/-- `NopProvider`: two in-memory text buffers, one per `ClipboardType`. -/
structure NopProvider where
  buf : Str
  primary_buf : Str
deriving DecidableEq, Repr

/-- `NopProvider::default()`: both buffers start empty. -/
def NopProvider.default : NopProvider := ⟨[], []⟩

/-- `NopProvider::name`. -/
def NopProvider.name (_ : NopProvider) : String := "none"

/-- `NopProvider::get_contents`: a copy of the requested buffer, always `Ok`. -/
def NopProvider.get_contents (p : NopProvider) (clipboard_type : ClipboardType) :
    Except String Str :=
  .ok (match clipboard_type with
       | .Clipboard => p.buf
       | .Selection => p.primary_buf)

/-- `NopProvider::set_contents`: overwrite the requested buffer, always `Ok`.
The returned pair is (provider after the `&mut self` call, call result). -/
def NopProvider.set_contents (p : NopProvider) (content : Str)
    (clipboard_type : ClipboardType) : NopProvider × Except String Unit :=
  (match clipboard_type with
   | .Clipboard => { p with buf := content }
   | .Selection => { p with primary_buf := content },
   .ok ())

/-! ## `TermProvider`: the terminal escape-code backend -/

/-- `TermProvider`: wraps a `NopProvider` used as fallback (the `.0` field). -/
structure TermProvider where
  inner : NopProvider
deriving DecidableEq, Repr

/-- `TermProvider::default()`. -/
def TermProvider.default : TermProvider := ⟨NopProvider.default⟩

/-- `TermProvider::name`. -/
def TermProvider.name (_ : TermProvider) : String := "ansi-escape-codes"

/-- `TermProvider::get_clip_char`: OSC 52 selector, empty for the clipboard,
`p` for the primary selection. -/
def TermProvider.get_clip_char : ClipboardType → Str
  | .Clipboard => []
  | .Selection => ['p']

/-- The terminal device: for a query written to `/dev/tty`, either `none`
(the device cannot be opened or written, or yields no byte before the 100ms
timeout) or `some bytes`, the byte stream the terminal answers with before
it falls silent. -/
abbrev Tty := Str → Option (List Nat)

/-- The read loop of `term_command`: take bytes one at a time, pushing each as
a char (`b as char`), until a literal backslash byte arrives; running out of
bytes models the 100ms read timeout. -/
def readLoop : List Nat → Str → Except String Str
  | [], _ => .error "Reading escape code response"
  | b :: rest, acc =>
    if b = 92 then .ok (acc ++ [Char.ofNat b]) else readLoop rest (acc ++ [Char.ofNat b])

/-- `TermProvider::term_command`: write `cmd` to the terminal device and read
the response up to and including the first backslash byte. -/
def term_command (cmd : Str) (tty : Tty) : Except String Str :=
  match tty cmd with
  | none => .error "could not open or write /dev/tty"
  | some bytes => readLoop bytes []

/-- `"\x1b]52;"`, the expected response head. -/
def esc52 : Str := "\x1b]52;".data

/-- `"\x1b\\"`, the string terminator. -/
def escEnd : Str := "\x1b\\".data

/-- The query `format!("\x1b]52;{};?\x1b\\", clip_char)`. -/
def TermProvider.query (clipboard_type : ClipboardType) : Str :=
  esc52 ++ TermProvider.get_clip_char clipboard_type ++ ";?".data ++ escEnd

/-- `TermProvider::get_contents`: query the terminal; when the round-trip
succeeds, parse the response (head, terminator, first `;` after the selector,
base64 payload, UTF-8 text); when the round-trip itself fails, read the
in-memory fallback instead. -/
def TermProvider.get_contents (p : TermProvider) (tty : Tty)
    (clipboard_type : ClipboardType) : Except String Str :=
  match term_command (TermProvider.query clipboard_type) tty with
  | .ok value =>
    match (dropPfx value esc52).bind (fun s => dropSfx s escEnd) with
    | some rest =>
      match afterFirstSemi rest with
      | some payload =>
        match base64.decode payload with
        | some bytes =>
          match utf8Decode bytes with
          | some s => .ok s
          | none => .error "invalid utf-8 sequence"
        | none => .error "invalid base64"
      | none => .error "The clipboard escape sequence does not have the expected format"
    | none => .error "The clipboard escape sequence does not have the expected format"
  | .error _ => p.inner.get_contents clipboard_type

/-- Standard output as a world: the result of writing a given text. -/
abbrev Stdout := Str → Except String Unit

/-- `TermProvider::set_contents`: store into the wrapped fallback buffer
(the inner future is dropped unawaited, but `NopProvider::set_contents`
mutates before returning its future), then emit the OSC 52 sequence to
standard output; the call's result is the write's result. -/
def TermProvider.set_contents (p : TermProvider) (content : Str)
    (clipboard_type : ClipboardType) (stdout : Stdout) :
    TermProvider × Except String Unit :=
  (⟨(p.inner.set_contents content clipboard_type).1⟩,
   stdout (esc52 ++ TermProvider.get_clip_char clipboard_type ++ [';'] ++
     base64.encode (utf8Encode content) ++ escEnd))

/-! ## `WindowsProvider`: the native-OS backend (compiled on Windows) -/

/-- The OS clipboard as a world: `clipboard_win::get_clipboard` /
`set_clipboard` outcomes. -/
structure WinClipboard where
  get_clipboard : Except String Str
  set_clipboard : Str → Except String Unit

/-- `WindowsProvider::name`. -/
def WindowsProvider.name : String := "clipboard-win"

/-- `WindowsProvider::get_contents`: OS clipboard for `Clipboard`; `Ok("")`
for `Selection`, which the host OS does not have. -/
def WindowsProvider.get_contents (os : WinClipboard) (clipboard_type : ClipboardType) :
    Except String Str :=
  match clipboard_type with
  | .Clipboard => os.get_clipboard
  | .Selection => .ok []

/-- `WindowsProvider::set_contents`: OS clipboard for `Clipboard`; a no-op
success for `Selection`. -/
def WindowsProvider.set_contents (os : WinClipboard) (contents : Str)
    (clipboard_type : ClipboardType) : Except String Unit :=
  match clipboard_type with
  | .Clipboard => os.set_clipboard contents
  | .Selection => .ok ()

/-! ## `CommandConfig` / `CommandProvider`: the external-command backend -/

/-- `CommandConfig`: one external invocation, program plus fixed arguments. -/
structure CommandConfig where
  prg : String
  args : List String
deriving DecidableEq, Repr

/-- One spawned process as a world: outcome of spawning, of writing stdin,
of waiting, the final status, and the bytes the process wrote to stdout. -/
structure ExecWorld where
  spawn : Except String Unit
  stdin_write : Except String Unit
  wait : Except String Unit
  status_success : Bool
  stdout : List Nat

/-- `CommandConfig::execute`: spawn the program, write `input` to its stdin
when given, wait; a non-zero exit fails naming the program; with
`pipe_output` the captured stdout is decoded as UTF-8 and returned. -/
def CommandConfig.execute (cfg : CommandConfig) (input : Option Str)
    (pipe_output : Bool) (w : ExecWorld) : Except String (Option Str) :=
  match w.spawn with
  | .error e => .error e
  | .ok _ =>
    match (match input with
           | some _ => w.stdin_write
           | none => .ok ()) with
    | .error e => .error e
    | .ok _ =>
      match w.wait with
      | .error e => .error e
      | .ok _ =>
        if !w.status_success then
          .error ("clipboard provider " ++ cfg.prg ++ " failed")
        else if pipe_output then
          match utf8Decode w.stdout with
          | some s => .ok (some s)
          | none => .error "invalid utf-8 in command output"
        else
          .ok none

/-- `CommandProvider`: get/set descriptors plus optional primary variants. -/
structure CommandProvider where
  get_cmd : CommandConfig
  set_cmd : CommandConfig
  get_primary_cmd : Option CommandConfig
  set_primary_cmd : Option CommandConfig
deriving DecidableEq, Repr

/-- `CommandProvider::name`: the get program, joined to the set program with
`+` when they differ. -/
def CommandProvider.name (p : CommandProvider) : String :=
  if p.get_cmd.prg ≠ p.set_cmd.prg then p.get_cmd.prg ++ "+" ++ p.set_cmd.prg
  else p.get_cmd.prg

/-- The tail of `CommandProvider::get_contents`: run the chosen descriptor
with piped output and unwrap, `context("output is missing")` on `Ok(None)`. -/
def CommandProvider.runGet (cmd : CommandConfig) (w : ExecWorld) : Except String Str :=
  match cmd.execute none true w with
  | .ok (some s) => .ok s
  | .ok none => .error "output is missing"
  | .error e => .error e

/-- `CommandProvider::get_contents`: choose the get (or get-primary)
descriptor; absent primary descriptor means `Ok("")` with no spawn. -/
def CommandProvider.get_contents (p : CommandProvider) (clipboard_type : ClipboardType)
    (w : ExecWorld) : Except String Str :=
  match clipboard_type with
  | .Clipboard => CommandProvider.runGet p.get_cmd w
  | .Selection =>
    match p.get_primary_cmd with
    | some cmd => CommandProvider.runGet cmd w
    | none => .ok []

/-- `CommandProvider::set_contents`: choose the set (or set-primary)
descriptor; absent primary descriptor means `Ok(())` with no spawn. -/
def CommandProvider.set_contents (p : CommandProvider) (value : Str)
    (clipboard_type : ClipboardType) (w : ExecWorld) : Except String Unit :=
  match clipboard_type with
  | .Clipboard => (p.set_cmd.execute (some value) false w).map fun _ => ()
  | .Selection =>
    match p.set_primary_cmd with
    | some cmd => (cmd.execute (some value) false w).map fun _ => ()
    | none => .ok ()

/-! ## The detection cascade -/

/-- The process environment as a world: PATH lookups (`which::which(..).is_ok()`),
environment-variable presence (`var_os(..).is_some()`), and the liveness probe
(`is_exit_success`). -/
structure Env where
  path_has : String → Bool
  var_set : String → Bool
  probe_ok : String → List String → Bool

/-- `exists` from clipboard.rs (a PATH lookup). -/
def exists_exe (env : Env) (executable_name : String) : Bool :=
  env.path_has executable_name

/-- `env_var_is_set` from clipboard.rs. -/
def env_var_is_set (env : Env) (env_var_name : String) : Bool :=
  env.var_set env_var_name

/-- `is_exit_success` from clipboard.rs: the synchronous liveness probe. -/
def is_exit_success (env : Env) (program : String) (args : List String) : Bool :=
  env.probe_ok program args

/-- The backend the cascade returns. -/
inductive Provider where
  | command (p : CommandProvider)
  | term
  | windows
deriving DecidableEq, Repr

/-- The Wayland command backend (cascade branch 2). -/
def waylandProvider : CommandProvider :=
  ⟨⟨"wl-paste", ["--no-newline"]⟩, ⟨"wl-copy", ["--type", "text/plain"]⟩,
   some ⟨"wl-paste", ["-p", "--no-newline"]⟩,
   some ⟨"wl-copy", ["-p", "--type", "text/plain"]⟩⟩

/-- `get_clipboard_provider`: the detection cascade, probing the environment
top to bottom and returning the first backend whose predicate holds;
`target_os_windows` selects the final fallback branch (`cfg(target_os)`). -/
def get_clipboard_provider (env : Env) (target_os_windows : Bool) : Provider :=
  if exists_exe env "pbcopy" && exists_exe env "pbpaste" then
    .command ⟨⟨"pbpaste", []⟩, ⟨"pbcopy", []⟩, none, none⟩
  else if env_var_is_set env "WAYLAND_DISPLAY" && exists_exe env "wl-copy" &&
      exists_exe env "wl-paste" then
    .command waylandProvider
  else if env_var_is_set env "DISPLAY" && exists_exe env "xclip" then
    .command ⟨⟨"xclip", ["-o", "-selection", "clipboard"]⟩,
      ⟨"xclip", ["-i", "-selection", "clipboard"]⟩,
      some ⟨"xclip", ["-o"]⟩, some ⟨"xclip", ["-i"]⟩⟩
  else if env_var_is_set env "DISPLAY" && exists_exe env "xsel" &&
      is_exit_success env "xsel" ["-o", "-b"] then
    .command ⟨⟨"xsel", ["-o", "-b"]⟩, ⟨"xsel", ["-i", "-b"]⟩,
      some ⟨"xsel", ["-o"]⟩, some ⟨"xsel", ["-i"]⟩⟩
  else if exists_exe env "lemonade" then
    .command ⟨⟨"lemonade", ["paste"]⟩, ⟨"lemonade", ["copy"]⟩, none, none⟩
  else if exists_exe env "doitclient" then
    .command ⟨⟨"doitclient", ["wclip", "-r"]⟩, ⟨"doitclient", ["wclip"]⟩, none, none⟩
  else if exists_exe env "win32yank.exe" then
    .command ⟨⟨"win32yank.exe", ["-o", "--lf"]⟩, ⟨"win32yank.exe", ["-i", "--crlf"]⟩,
      none, none⟩
  else if exists_exe env "termux-clipboard-set" && exists_exe env "termux-clipboard-get" then
    .command ⟨⟨"termux-clipboard-get", []⟩, ⟨"termux-clipboard-set", []⟩, none, none⟩
  else if env_var_is_set env "TMUX" && exists_exe env "tmux" then
    .command ⟨⟨"sh", ["-c", "tmux refresh-client -l; sleep 0.1; tmux save-buffer -"]⟩,
      ⟨"tmux", ["load-buffer", "-w", "-"]⟩, none, none⟩
  else if target_os_windows then .windows
  else .term

/-! ## Helper lemmas -/

/-- Every Unicode scalar value is below `0x110000` and avoids the surrogate range. -/
lemma char_valid (c : Char) :
    c.toNat < 0xD800 ∨ (0xE000 ≤ c.toNat ∧ c.toNat < 0x110000) := c.valid

lemma char_toNat_lt (c : Char) : c.toNat < 0x110000 := by
  rcases char_valid c with h | h <;> omega

namespace base64

lemma decodeChar_encodeChar : ∀ n < 64, decodeChar (encodeChar n) = some n := by decide

lemma encodeChar_ne_pad : ∀ n < 64, encodeChar n ≠ '=' := by decide

lemma encodeChar_toNat_ne_92 : ∀ n < 64, (encodeChar n).toNat ≠ 92 := by decide

/-- Characters produced by `encode` on bytes are never the backslash byte. -/
lemma encode_toNat_ne_92 (l : List Nat) (h : ∀ x ∈ l, x < 256) :
    ∀ c ∈ encode l, c.toNat ≠ 92 := by
  induction l using encode.induct with
  | case1 => simp [encode]
  | case2 a =>
    have ha : a < 256 := h a (by simp)
    simp only [encode, List.mem_cons, List.not_mem_nil, or_false]
    rintro c (rfl | rfl | rfl | rfl)
    · exact encodeChar_toNat_ne_92 _ (by omega)
    · exact encodeChar_toNat_ne_92 _ (by omega)
    · decide
    · decide
  | case3 a b =>
    have ha : a < 256 := h a (by simp)
    have hb : b < 256 := h b (by simp)
    simp only [encode, List.mem_cons, List.not_mem_nil, or_false]
    rintro c (rfl | rfl | rfl | rfl)
    · exact encodeChar_toNat_ne_92 _ (by omega)
    · exact encodeChar_toNat_ne_92 _ (by omega)
    · exact encodeChar_toNat_ne_92 _ (by omega)
    · decide
  | case4 a b c rest ih =>
    have ha : a < 256 := h a (by simp)
    have hb : b < 256 := h b (by simp)
    have hc : c < 256 := h c (by simp)
    have ih' := ih fun x hx => h x (by simp [hx])
    simp only [encode, List.mem_cons]
    rintro d (rfl | rfl | rfl | rfl | hd)
    · exact encodeChar_toNat_ne_92 _ (by omega)
    · exact encodeChar_toNat_ne_92 _ (by omega)
    · exact encodeChar_toNat_ne_92 _ (by omega)
    · exact encodeChar_toNat_ne_92 _ (by omega)
    · exact ih' d hd

/-- Decoding inverts encoding on byte lists: the base64 model round-trips. -/
lemma decode_encode (l : List Nat) (h : ∀ x ∈ l, x < 256) :
    decode (encode l) = some l := by
  induction l using encode.induct with
  | case1 => rfl
  | case2 a =>
    have ha : a < 256 := h a (by simp)
    have e1 := decodeChar_encodeChar (a / 4) (by omega)
    have e2 := decodeChar_encodeChar (a % 4 * 16) (by omega)
    simp only [encode, decode, e1, e2, if_pos, and_self, if_true, reduceIte]
    rw [if_pos (by omega)]
    simp only [Option.some.injEq, List.cons.injEq, and_true]
    omega
  | case3 a b =>
    have ha : a < 256 := h a (by simp)
    have hb : b < 256 := h b (by simp)
    have e1 := decodeChar_encodeChar (a / 4) (by omega)
    have e2 := decodeChar_encodeChar (a % 4 * 16 + b / 16) (by omega)
    have e3 := decodeChar_encodeChar (b % 16 * 4) (by omega)
    have ne3 := encodeChar_ne_pad (b % 16 * 4) (by omega)
    simp only [encode, decode, if_neg ne3, e1, e2, e3, and_self, if_true, reduceIte]
    rw [if_pos (by omega)]
    simp only [Option.some.injEq, List.cons.injEq, and_true]
    omega
  | case4 a b c rest ih =>
    have ha : a < 256 := h a (by simp)
    have hb : b < 256 := h b (by simp)
    have hc : c < 256 := h c (by simp)
    have ih' := ih fun x hx => h x (by simp [hx])
    have e1 := decodeChar_encodeChar (a / 4) (by omega)
    have e2 := decodeChar_encodeChar (a % 4 * 16 + b / 16) (by omega)
    have e3 := decodeChar_encodeChar (b % 16 * 4 + c / 64) (by omega)
    have e4 := decodeChar_encodeChar (c % 64) (by omega)
    have ne3 := encodeChar_ne_pad (b % 16 * 4 + c / 64) (by omega)
    have ne4 := encodeChar_ne_pad (c % 64) (by omega)
    simp only [encode, decode, if_neg ne3, if_neg ne4, e1, e2, e3, e4, ih',
      Option.map_some']
    simp only [Option.some.injEq, List.cons.injEq]
    exact ⟨by omega, by omega, by omega, trivial⟩

end base64

lemma dropPfx_append (p r : Str) : dropPfx (p ++ r) p = some r := by
  induction p with
  | nil => cases r <;> rfl
  | cons c p ih => simp [dropPfx, ih]

lemma dropSfx_append (r s : Str) : dropSfx (r ++ s) s = some r := by
  simp [dropSfx, List.reverse_append, dropPfx_append]

lemma afterFirstSemi_append (sel b : Str) (h : ∀ c ∈ sel, c ≠ ';') :
    afterFirstSemi (sel ++ ';' :: b) = some b := by
  induction sel with
  | nil => simp [afterFirstSemi]
  | cons c sel ih =>
    have hc : c ≠ ';' := h c (by simp)
    simp only [List.cons_append, afterFirstSemi, if_neg hc]
    exact ih fun x hx => h x (by simp [hx])

lemma readLoop_ok (l : List Nat) (rest : List Nat) (acc : Str) (h : ∀ b ∈ l, b ≠ 92) :
    readLoop (l ++ 92 :: rest) acc = .ok (acc ++ l.map Char.ofNat ++ ['\\']) := by
  induction l generalizing acc with
  | nil => simp [readLoop]
  | cons b l ih =>
    have hb : b ≠ 92 := h b (by simp)
    simp only [List.cons_append, readLoop, if_neg hb]
    show readLoop (l ++ 92 :: rest) (acc ++ [Char.ofNat b]) = _
    rw [ih (acc ++ [Char.ofNat b]) (fun x hx => h x (by simp [hx]))]
    simp

lemma utf8EncodeChar_lt_256 (c : Char) : ∀ x ∈ utf8EncodeChar c, x < 256 := by
  intro x hx
  have hv := char_toNat_lt c
  simp only [utf8EncodeChar] at hx
  split_ifs at hx <;> simp at hx <;> omega

lemma utf8Encode_lt_256 (s : Str) : ∀ x ∈ utf8Encode s, x < 256 := by
  induction s with
  | nil => simp [utf8Encode]
  | cons c s ih =>
    intro x hx
    simp only [utf8Encode, List.mem_append] at hx
    exact hx.elim (utf8EncodeChar_lt_256 c x) (ih x)

lemma utf8Decode_nil : utf8Decode [] = some [] := by
  rw [utf8Decode]

lemma utf8Decode_cons (b : Nat) (rest : List Nat) :
    utf8Decode (b :: rest) =
      match utf8Step b rest with
      | some (v, k) => (utf8Decode (rest.drop k)).map (Char.ofNat v :: ·)
      | none => none := by
  rw [utf8Decode]

set_option maxHeartbeats 1000000 in
lemma utf8Decode_encodeChar (c : Char) (l : List Nat) :
    utf8Decode (utf8EncodeChar c ++ l) = (utf8Decode l).map (c :: ·) := by
  have hv := char_valid c
  simp only [utf8EncodeChar]
  by_cases h1 : c.toNat < 0x80
  · rw [if_pos h1]
    simp only [List.cons_append, List.nil_append]
    rw [utf8Decode_cons]
    have hstep : utf8Step c.toNat l = some (c.toNat, 0) := by
      simp only [utf8Step]
      rw [if_pos h1]
    rw [hstep]
    show (utf8Decode (l.drop 0)).map (Char.ofNat c.toNat :: ·) = _
    rw [List.drop_zero, Char.ofNat_toNat]
  · rw [if_neg h1]
    by_cases h2 : c.toNat < 0x800
    · rw [if_pos h2]
      simp only [List.cons_append, List.nil_append]
      rw [utf8Decode_cons]
      have hstep : utf8Step (0xC0 + c.toNat / 64) ((0x80 + c.toNat % 64) :: l)
          = some (c.toNat, 1) := by
        simp only [utf8Step, Nat.add_sub_cancel_left]
        split_ifs <;>
          first
            | (simp only [Option.some.injEq, Prod.mk.injEq, and_true]; omega)
            | (exfalso; omega)
      rw [hstep]
      show (utf8Decode (((0x80 + c.toNat % 64) :: l).drop 1)).map
        (Char.ofNat c.toNat :: ·) = _
      rw [List.drop_succ_cons, List.drop_zero, Char.ofNat_toNat]
    · rw [if_neg h2]
      by_cases h3 : c.toNat < 0x10000
      · rw [if_pos h3]
        simp only [List.cons_append, List.nil_append]
        rw [utf8Decode_cons]
        have hstep : utf8Step (0xE0 + c.toNat / 4096)
            ((0x80 + c.toNat / 64 % 64) :: (0x80 + c.toNat % 64) :: l)
            = some (c.toNat, 2) := by
          simp only [utf8Step, Nat.add_sub_cancel_left]
          split_ifs <;>
            first
              | (simp only [Option.some.injEq, Prod.mk.injEq, and_true]; omega)
              | (exfalso; omega)
        rw [hstep]
        show (utf8Decode (((0x80 + c.toNat / 64 % 64) :: (0x80 + c.toNat % 64) :: l).drop
          2)).map (Char.ofNat c.toNat :: ·) = _
        rw [List.drop_succ_cons, List.drop_succ_cons, List.drop_zero, Char.ofNat_toNat]
      · rw [if_neg h3]
        simp only [List.cons_append, List.nil_append]
        rw [utf8Decode_cons]
        have hstep : utf8Step (0xF0 + c.toNat / 262144)
            ((0x80 + c.toNat / 4096 % 64) :: (0x80 + c.toNat / 64 % 64) ::
              (0x80 + c.toNat % 64) :: l)
            = some (c.toNat, 3) := by
          simp only [utf8Step, Nat.add_sub_cancel_left]
          split_ifs <;>
            first
              | (simp only [Option.some.injEq, Prod.mk.injEq, and_true]; omega)
              | (exfalso; omega)
        rw [hstep]
        show (utf8Decode (((0x80 + c.toNat / 4096 % 64) :: (0x80 + c.toNat / 64 % 64) ::
          (0x80 + c.toNat % 64) :: l).drop 3)).map (Char.ofNat c.toNat :: ·) = _
        rw [List.drop_succ_cons, List.drop_succ_cons, List.drop_succ_cons, List.drop_zero,
          Char.ofNat_toNat]

/-- Decoding inverts encoding: the UTF-8 model is a faithful round trip. -/
lemma utf8Decode_utf8Encode (s : Str) : utf8Decode (utf8Encode s) = some s := by
  induction s with
  | nil => rw [utf8Encode, utf8Decode_nil]
  | cons c s ih => rw [utf8Encode, utf8Decode_encodeChar, ih, Option.map_some']

lemma term_command_some (cmd : Str) (tty : Tty) (bytes : List Nat)
    (h : tty cmd = some bytes) : term_command cmd tty = readLoop bytes [] := by
  rw [term_command, h]

lemma map_ofNat_toNat (l : Str) : (l.map Char.toNat).map Char.ofNat = l := by
  induction l with
  | nil => rfl
  | cons c l ih => simp [Char.ofNat_toNat, ih]

/-! ## Claim theorems -/

/-- C8: the in-memory fallback backend starts with both buffers empty; for
every text and kind, `set_contents` succeeds and a following `get_contents`
of that kind returns the text; both operations never error; and setting one
kind leaves the other kind's buffer unchanged. -/
theorem nop_spec :
    NopProvider.default.buf = [] ∧ NopProvider.default.primary_buf = [] ∧
    (∀ (p : NopProvider) (x : Str) (k : ClipboardType),
      (p.set_contents x k).2 = .ok ()) ∧
    (∀ (p : NopProvider) (x : Str) (k : ClipboardType),
      (p.set_contents x k).1.get_contents k = .ok x) ∧
    (∀ (p : NopProvider) (k : ClipboardType), ∃ v, p.get_contents k = .ok v) ∧
    (∀ (p : NopProvider) (x : Str),
      (p.set_contents x .Clipboard).1.primary_buf = p.primary_buf ∧
      (p.set_contents x .Selection).1.buf = p.buf) := by
  refine ⟨rfl, rfl, ?_, ?_, ?_, ?_⟩
  · intro p x k; cases k <;> rfl
  · intro p x k; cases k <;> rfl
  · intro p k; exact ⟨_, rfl⟩
  · intro p x; exact ⟨rfl, rfl⟩

/-- C1 (counterexample): a terminal response consisting of the single byte
`\\` terminates the read loop, so the round trip succeeds, but the response
is malformed, and `TermProvider::get_contents` surfaces an `Err` to the
caller instead of falling back — refuting the claim that `get_contents`
returns `Ok` for every possible terminal response. -/
theorem term_get_malformed_counterexample :
    TermProvider.get_contents TermProvider.default (fun _ => some [92]) .Clipboard
      = .error "The clipboard escape sequence does not have the expected format" := rfl

/-- C1 (amended): only a failure of the terminal round trip itself (device
cannot be opened or written, or the read times out) is hidden from the
caller: in that case `get_contents` transparently reads the in-memory
fallback buffer, which always succeeds. -/
theorem term_get_error_policy (p : TermProvider) (tty : Tty) (ct : ClipboardType)
    (e : String) (h : term_command (TermProvider.query ct) tty = .error e) :
    TermProvider.get_contents p tty ct = p.inner.get_contents ct ∧
    ∃ v, p.inner.get_contents ct = .ok v := by
  refine ⟨?_, _, rfl⟩
  simp only [TermProvider.get_contents, h]

/-- C1 (witness): the amended theorem at a terminal that never answers. -/
theorem term_get_error_policy_witness :
    TermProvider.get_contents ⟨⟨"x".data, []⟩⟩ (fun _ => none) .Clipboard
      = (⟨⟨"x".data, []⟩⟩ : TermProvider).inner.get_contents .Clipboard :=
  (term_get_error_policy ⟨⟨"x".data, []⟩⟩ (fun _ => none) .Clipboard
    "could not open or write /dev/tty" rfl).1

/-- C7: when the terminal query round trip fails, `get_contents kind`
returns `Ok` of the text most recently stored by `set_contents` for that
kind on the same instance, and of the initial empty string on a fresh
instance. -/
theorem term_set_then_get_on_failure (p : TermProvider) (content : Str)
    (ct : ClipboardType) (stdout : Stdout) (tty : Tty) (e : String)
    (h : term_command (TermProvider.query ct) tty = .error e) :
    (TermProvider.set_contents p content ct stdout).1.get_contents tty ct
      = .ok content ∧
    TermProvider.default.get_contents tty ct = .ok [] := by
  constructor
  · simp only [TermProvider.set_contents, TermProvider.get_contents, h,
      NopProvider.set_contents, NopProvider.get_contents]
    cases ct <;> rfl
  · simp only [TermProvider.get_contents, h, TermProvider.default,
      NopProvider.default, NopProvider.get_contents]
    cases ct <;> rfl

/-- C7 (witness): set then get on a silent terminal returns the set text. -/
theorem term_set_then_get_witness :
    (TermProvider.set_contents TermProvider.default "hi".data .Clipboard
      (fun _ => .ok ())).1.get_contents (fun _ => none) .Clipboard = .ok "hi".data :=
  (term_set_then_get_on_failure TermProvider.default "hi".data .Clipboard
    (fun _ => .ok ()) (fun _ => none) "could not open or write /dev/tty" rfl).1

/-- C6: `TermProvider::set_contents` stores the text into the wrapped
fallback buffer unconditionally, emits exactly
`ESC ] 5 2 ; <selector> ; <base64 of text> ESC \\` to standard output with
selector empty for `Clipboard` and `p` for `Selection`, and its result is
precisely the result of that write. -/
theorem term_set_spec (p : TermProvider) (content : Str) (ct : ClipboardType)
    (stdout : Stdout) :
    (TermProvider.set_contents p content ct stdout).1.inner
        = (p.inner.set_contents content ct).1 ∧
    (TermProvider.set_contents p content ct stdout).1.inner.get_contents ct
        = .ok content ∧
    (TermProvider.set_contents p content ct stdout).2
        = stdout (esc52 ++ TermProvider.get_clip_char ct ++ [';'] ++
            base64.encode (utf8Encode content) ++ escEnd) ∧
    TermProvider.get_clip_char .Clipboard = [] ∧
    TermProvider.get_clip_char .Selection = ['p'] := by
  refine ⟨rfl, ?_, rfl, rfl, rfl⟩
  cases ct <;> rfl

/-- C5: if the terminal answers the query with
`ESC ] 5 2 ; <selector> ; <base64 of the UTF-8 of s> ESC \\`, then
`get_contents` returns `Ok s`. -/
theorem term_get_ok (p : TermProvider) (tty : Tty) (ct : ClipboardType) (s : Str)
    (h : tty (TermProvider.query ct) =
      some ((esc52 ++ TermProvider.get_clip_char ct ++ [';'] ++
        base64.encode (utf8Encode s) ++ escEnd).map Char.toNat)) :
    TermProvider.get_contents p tty ct = .ok s := by
  have hb64lt := utf8Encode_lt_256 s
  have hb64 : ∀ c ∈ base64.encode (utf8Encode s), c.toNat ≠ 92 :=
    base64.encode_toNat_ne_92 _ hb64lt
  have hsel : ∀ c ∈ TermProvider.get_clip_char ct, c.toNat ≠ 92 := by
    cases ct <;> decide
  have hesc : ∀ c ∈ esc52, c.toNat ≠ 92 := by decide
  have h92 : ∀ c ∈ esc52 ++ TermProvider.get_clip_char ct ++ [';'] ++
      base64.encode (utf8Encode s) ++ ['\x1b'], c.toNat ≠ 92 := by
    intro c hc
    simp only [List.mem_append, List.mem_singleton] at hc
    rcases hc with ((((hc | hc) | hc) | hc) | hc)
    · exact hesc c hc
    · exact hsel c hc
    · subst hc; decide
    · exact hb64 c hc
    · subst hc; decide
  have h92b : ∀ b ∈ List.map Char.toNat (esc52 ++ TermProvider.get_clip_char ct ++
      [';'] ++ base64.encode (utf8Encode s) ++ ['\x1b']), b ≠ 92 := by
    intro bb hbb
    simp only [List.mem_map] at hbb
    obtain ⟨c, hc, rfl⟩ := hbb
    exact h92 c hc
  have hsplit : esc52 ++ TermProvider.get_clip_char ct ++ [';'] ++
      base64.encode (utf8Encode s) ++ escEnd
      = (esc52 ++ TermProvider.get_clip_char ct ++ [';'] ++
        base64.encode (utf8Encode s) ++ ['\x1b']) ++ ['\\'] := by
    rw [show escEnd = ['\x1b'] ++ ['\\'] from rfl, ← List.append_assoc]
  have hterm : term_command (TermProvider.query ct) tty
      = .ok (esc52 ++ TermProvider.get_clip_char ct ++ [';'] ++
        base64.encode (utf8Encode s) ++ escEnd) := by
    rw [term_command_some _ _ _ h, hsplit, List.map_append,
      show List.map Char.toNat ['\\'] = 92 :: [] from rfl,
      readLoop_ok _ _ _ h92b, List.nil_append, map_ofNat_toNat]
  have hparse : (dropPfx (esc52 ++ TermProvider.get_clip_char ct ++ [';'] ++
      base64.encode (utf8Encode s) ++ escEnd) esc52).bind (fun r => dropSfx r escEnd)
      = some (TermProvider.get_clip_char ct ++ ';' :: base64.encode (utf8Encode s)) := by
    have h1 : esc52 ++ TermProvider.get_clip_char ct ++ [';'] ++
        base64.encode (utf8Encode s) ++ escEnd
        = esc52 ++ ((TermProvider.get_clip_char ct ++ ';' ::
          base64.encode (utf8Encode s)) ++ escEnd) := by simp
    rw [h1, dropPfx_append, Option.some_bind, dropSfx_append]
  have hsemi : afterFirstSemi (TermProvider.get_clip_char ct ++ ';' ::
      base64.encode (utf8Encode s)) = some (base64.encode (utf8Encode s)) := by
    refine afterFirstSemi_append _ _ ?_
    cases ct <;> decide
  have hdec := base64.decode_encode _ hb64lt
  have hutf := utf8Decode_utf8Encode s
  simp only [TermProvider.get_contents, hterm, hparse, hsemi, hdec, hutf]

/-- C5 (witness): a reply carrying the base64 of `abc` yields `abc`. -/
theorem term_get_ok_witness :
    TermProvider.get_contents TermProvider.default
      (fun _ => some ((esc52 ++ TermProvider.get_clip_char .Clipboard ++ [';'] ++
        base64.encode (utf8Encode "abc".data) ++ escEnd).map Char.toNat)) .Clipboard
      = .ok "abc".data :=
  term_get_ok _ _ .Clipboard "abc".data rfl

/-- C2: with the primary descriptors absent, `get_contents Selection` is
`Ok("")` and `set_contents _ Selection` is `Ok(())` for every process world,
and likewise for the native-OS Windows backend for every OS clipboard. -/
theorem primary_absent_trivial (p : CommandProvider)
    (hg : p.get_primary_cmd = none) (hs : p.set_primary_cmd = none) :
    (∀ w : ExecWorld, p.get_contents .Selection w = .ok []) ∧
    (∀ (text : Str) (w : ExecWorld), p.set_contents text .Selection w = .ok ()) ∧
    (∀ os : WinClipboard, WindowsProvider.get_contents os .Selection = .ok []) ∧
    (∀ (os : WinClipboard) (text : Str),
      WindowsProvider.set_contents os text .Selection = .ok ()) := by
  refine ⟨?_, ?_, fun _ => rfl, fun _ _ => rfl⟩
  · intro w; simp [CommandProvider.get_contents, hg]
  · intro text w; simp [CommandProvider.set_contents, hs]

/-- C2 (witness): the macOS pasteboard configuration has no primary
descriptors, and its primary get trivially succeeds with the empty text. -/
theorem primary_absent_trivial_witness :
    (⟨⟨"pbpaste", []⟩, ⟨"pbcopy", []⟩, none, none⟩ : CommandProvider).get_contents
        .Selection ⟨.ok (), .ok (), .ok (), true, []⟩ = .ok [] :=
  (primary_absent_trivial _ rfl rfl).1 _

/-- C3: when the spawned program exits with a non-zero status, both
`get_contents` and `set_contents` fail, and each error message contains the
name of the program from the chosen descriptor. -/
theorem command_exit_failure_names_program (p : CommandProvider) (value : Str)
    (w : ExecWorld) (hspawn : w.spawn = .ok ()) (hstdin : w.stdin_write = .ok ())
    (hwait : w.wait = .ok ()) (hstatus : w.status_success = false) :
    p.get_contents .Clipboard w
        = .error ("clipboard provider " ++ p.get_cmd.prg ++ " failed") ∧
    p.set_contents value .Clipboard w
        = .error ("clipboard provider " ++ p.set_cmd.prg ++ " failed") ∧
    (∃ u v : List Char, ("clipboard provider " ++ p.get_cmd.prg ++ " failed").data
        = u ++ p.get_cmd.prg.data ++ v) ∧
    (∃ u v : List Char, ("clipboard provider " ++ p.set_cmd.prg ++ " failed").data
        = u ++ p.set_cmd.prg.data ++ v) := by
  refine ⟨?_, ?_, ⟨"clipboard provider ".data, " failed".data, by simp⟩,
    ⟨"clipboard provider ".data, " failed".data, by simp⟩⟩
  · simp [CommandProvider.get_contents, CommandProvider.runGet, CommandConfig.execute,
      hspawn, hstdin, hwait, hstatus]
  · simp [CommandProvider.set_contents, CommandConfig.execute, hspawn, hstdin, hwait,
      hstatus, Except.map]

/-- C3 (witness): a failing `xclip` get call produces the naming error. -/
theorem command_exit_failure_witness :
    (⟨⟨"xclip", []⟩, ⟨"xclip", []⟩, none, none⟩ : CommandProvider).get_contents
        .Clipboard ⟨.ok (), .ok (), .ok (), false, []⟩
      = .error ("clipboard provider " ++ "xclip" ++ " failed") :=
  (command_exit_failure_names_program _ [] _ rfl rfl rfl rfl).1

/-- C9: `CommandProvider::name` is the get program alone when get and set
use the same program, and otherwise the two program names joined by `+`,
get first. -/
theorem command_name_spec (p : CommandProvider) :
    (p.get_cmd.prg = p.set_cmd.prg → p.name = p.get_cmd.prg) ∧
    (p.get_cmd.prg ≠ p.set_cmd.prg →
      p.name = p.get_cmd.prg ++ "+" ++ p.set_cmd.prg) := by
  constructor
  · intro h; simp [CommandProvider.name, h]
  · intro h; simp [CommandProvider.name, h]

/-- C9 (witness): the Wayland backend's name is `wl-paste+wl-copy`. -/
theorem command_name_witness :
    (waylandProvider).name = "wl-paste" ++ "+" ++ "wl-copy" :=
  (command_name_spec _).2 (by decide)

/-- C10: `CommandConfig::execute` with piped output never returns
`Ok(None)`, so the `output is missing` branch of
`CommandProvider::get_contents` is unreachable after a successful get. -/
theorem execute_piped_output_is_some (cfg : CommandConfig) (input : Option Str)
    (w : ExecWorld) : cfg.execute input true w ≠ .ok none := by
  unfold CommandConfig.execute
  cases hsp : w.spawn <;> simp
  cases hin : (match input with | some _ => w.stdin_write | none => Except.ok ()) <;> simp
  cases hw : w.wait <;> simp
  by_cases hst : w.status_success <;> simp [hst]
  cases hdec : utf8Decode w.stdout <;> simp

/-- C4: the detection cascade is ordered and short-circuits: when the
macOS branch fails and the Wayland predicate holds, Wayland is selected even
though the later X11/xclip predicate also holds. -/
theorem cascade_wayland_over_x11 (env : Env) (tw : Bool)
    (hpb : (exists_exe env "pbcopy" && exists_exe env "pbpaste") = false)
    (hwd : env_var_is_set env "WAYLAND_DISPLAY" = true)
    (hwc : exists_exe env "wl-copy" = true)
    (hwp : exists_exe env "wl-paste" = true)
    (hx : env_var_is_set env "DISPLAY" = true)
    (hxc : exists_exe env "xclip" = true) :
    get_clipboard_provider env tw = .command waylandProvider := by
  simp [get_clipboard_provider, hpb, hwd, hwc, hwp]

/-- C4 (witness): a fabricated environment with both the Wayland and X11
indicators and all three executables on PATH selects the Wayland backend. -/
theorem cascade_wayland_witness :
    get_clipboard_provider
      ⟨fun s => decide (s ∈ (["wl-copy", "wl-paste", "xclip"] : List String)),
       fun v => decide (v ∈ (["WAYLAND_DISPLAY", "DISPLAY"] : List String)),
       fun _ _ => false⟩ false = .command waylandProvider :=
  cascade_wayland_over_x11 _ _ rfl rfl rfl rfl rfl rfl

end Clipboard
